import Mathlib

/-!
Shallow embedding of the Video Frame Extractor (Freemium) core, translated from
`src/App.tsx` and `src/services/geminiService.ts`, together with proofs about the
frame-extraction quality filter, the frame-lifecycle state machine, the session
describe quota, and the prompt builder.

Image buffers are RGBA byte lists (`List ℕ`, one entry per channel byte).
JavaScript floating-point arithmetic is modelled with exact rationals (`ℚ`);
`Uint8ClampedArray` stores are modelled as round-to-nearest with clamping.
-/

namespace VideoFrameExtractor

/-! ## Quality filter: similarity predicate (`areFramesSimilar`, App.tsx 682-710) -/

/-- `Math.abs (a - b)` on channel byte values. -/
def absDiff (a b : ℕ) : ℕ := max a b - min a b

/-- Byte offsets visited by the similarity sampling loop
`for (let i = 0; i < numPixels * 4; i += 4 * sampleRate)` with `sampleRate = 10`:
`0, 40, 80, …`, i.e. every 10th pixel by linear buffer offset.
The loop runs `⌈numPixels / 10⌉ = (numPixels + 9) / 10` times. -/
def sampleOffsets (numPixels : ℕ) : List ℕ :=
  (List.range ((numPixels + 9) / 10)).map (fun k => 40 * k)

/-- Accumulated `diff`: absolute per-channel difference over the red, green and
blue bytes of each sampled pixel. -/
def sampledDiffSum (cur prev : List ℕ) (numPixels : ℕ) : ℕ :=
  ((sampleOffsets numPixels).map (fun i =>
    absDiff (cur.getD i 0) (prev.getD i 0) +
    absDiff (cur.getD (i + 1) 0) (prev.getD (i + 1) 0) +
    absDiff (cur.getD (i + 2) 0) (prev.getD (i + 2) 0))).sum

/-- `areFramesSimilar` from App.tsx 682-710.  With no previous accepted frame the
answer is `false` (the first frame is always unique).  Otherwise
`avgDiff = diff / (totalSamples * 3)` with `totalSamples = numPixels / sampleRate`
computed by real (floating-point) division, and the frames are deemed similar when
`avgDiff < similarityThreshold`.  For `numPixels = 0` JavaScript computes
`0 / 0 = NaN` and `NaN < t` is `false`, hence the explicit zero-pixel branch. -/
def areFramesSimilar (cur : List ℕ) (previousFrameData : Option (List ℕ))
    (width height : ℕ) (similarityThreshold : ℚ) : Bool :=
  match previousFrameData with
  | none => false
  | some prev =>
    let numPixels := width * height
    if numPixels = 0 then false
    else
      let diff : ℚ := (sampledDiffSum cur prev numPixels : ℚ)
      let totalSamples : ℚ := (numPixels : ℚ) / 10
      decide (diff / (totalSamples * 3) < similarityThreshold)

/-- Similarity rejection as the specification words it: the summed sampled
difference is divided by `(sampled-pixel-count × 3)`, where the sampled-pixel
count is the number of pixels actually visited, `⌈numPixels / 10⌉`. -/
def similarRejectSpec (cur : List ℕ) (previousFrameData : Option (List ℕ))
    (width height : ℕ) (similarityThreshold : ℚ) : Bool :=
  match previousFrameData with
  | none => false
  | some prev =>
    let numPixels := width * height
    let sampledCount := (numPixels + 9) / 10
    if sampledCount = 0 then false
    else
      decide ((sampledDiffSum cur prev numPixels : ℚ) / ((sampledCount : ℚ) * 3)
        < similarityThreshold)

/-! ## Quality filter: blur predicate (`isFrameBlurry`, App.tsx 629-670) -/

/-- A `Uint8ClampedArray` store: round to nearest and clamp into `[0, 255]`.
(Exact half-way ties essentially never arise from the binary floating-point luma
product; the tie-breaking direction is immaterial to the theorems below.) -/
def clampByte (q : ℚ) : ℕ := min 255 (round q).toNat

/-- Grayscale value `gray[y * width + x] = 0.299 r + 0.587 g + 0.114 b` of the
RGBA buffer, as stored into the `Uint8ClampedArray`. -/
def grayAt (data : List ℕ) (width x y : ℕ) : ℕ :=
  let p := y * width + x
  clampByte (((299 * data.getD (4 * p) 0 + 587 * data.getD (4 * p + 1) 0
    + 114 * data.getD (4 * p + 2) 0 : ℕ) : ℚ) / 1000)

/-- The 4-neighbour discrete Laplacian responses
`(top + bottom + left + right) - 4 * center` collected by the double loop
`for (y = 1; y < height - 1; …) for (x = 1; x < width - 1; …)`:
all interior pixels in row-major order, border pixels excluded. -/
def lapValues (data : List ℕ) (width height : ℕ) : List ℤ :=
  ((List.range (height - 2)).map (fun j =>
    (List.range (width - 2)).map (fun i =>
      let x := i + 1
      let y := j + 1
      ((grayAt data width x (y - 1) : ℤ) + (grayAt data width x (y + 1) : ℤ)
        + (grayAt data width (x - 1) y : ℤ) + (grayAt data width (x + 1) y : ℤ))
        - 4 * (grayAt data width x y : ℤ)))).flatten

/-- `isFrameBlurry` from App.tsx 629-670: returns `false` when there are no
interior pixels; otherwise compares the population variance of the Laplacian
responses against `blurThreshold` (strictly below means blurry). -/
def isFrameBlurry (data : List ℕ) (width height : ℕ) (blurThreshold : ℚ) : Bool :=
  let vals := lapValues data width height
  if vals.length = 0 then false
  else
    let n : ℚ := (vals.length : ℚ)
    let mean : ℚ := ((vals.map (fun (v : ℤ) => (v : ℚ))).sum) / n
    let variance : ℚ := ((vals.map (fun (v : ℤ) => ((v : ℚ) - mean) ^ 2)).sum) / n
    decide (variance < blurThreshold)

/-- Population variance of a list of rationals, as the specification words it. -/
def popVariance (vals : List ℚ) : ℚ :=
  let n : ℚ := (vals.length : ℚ)
  let mean : ℚ := vals.sum / n
  ((vals.map (fun v => (v - mean) ^ 2)).sum) / n

/-- The Laplacian responses as rationals. -/
def lapValuesQ (data : List ℕ) (width height : ℕ) : List ℚ :=
  (lapValues data width height).map (fun (v : ℤ) => (v : ℚ))

/-! ## Frame extraction (`extractFrames`, App.tsx 722-791) -/

/-- Acceptance test applied to each seeked frame (App.tsx 767-770):
a candidate is kept iff it is neither blurry nor similar to the last accepted frame. -/
def frameAccepted (data : List ℕ) (lastAccepted : Option (List ℕ)) (width height : ℕ)
    (blurThreshold similarityThreshold : ℚ) : Bool :=
  !(isFrameBlurry data width height blurThreshold) &&
  !(areFramesSimilar data lastAccepted width height similarityThreshold)

/-- What the decoder reports for a video source: either the `error` event fires,
or `loadedmetadata` fires with a duration, pixel dimensions, and the frame decoded
at each seeked timestamp. -/
inductive VideoSource where
  | loadError (msg : String)
  | media (duration : ℚ) (width height : ℕ) (frameAt : ℚ → List ℕ)

structure ExtractOptions where
  blurThreshold : ℚ
  similarityThreshold : ℚ

/-- The `processFrame` / `seeked` loop of `extractFrames`: stop (resolve) once
`currentTime > duration` or `acceptedFrameCount >= maxFrames`; otherwise decode the
frame at `currentTime`, run the quality filter, and advance by `interval`.
The fuel argument only bounds the recursion; `extractFrames` supplies enough fuel
for the `currentTime > duration` check to fire first. -/
def extractLoop (frameAt : ℚ → List ℕ) (width height : ℕ) (opts : ExtractOptions)
    (maxFrames : ℕ) (duration interval : ℚ) :
    ℕ → ℚ → List (List ℕ) → Option (List ℕ) → ℕ → List (List ℕ)
  | 0, _, frames, _, _ => frames
  | fuel + 1, currentTime, frames, lastAccepted, acceptedCount =>
    if duration < currentTime ∨ maxFrames ≤ acceptedCount then frames
    else
      let candidate := frameAt currentTime
      if frameAccepted candidate lastAccepted width height
          opts.blurThreshold opts.similarityThreshold then
        extractLoop frameAt width height opts maxFrames duration interval fuel
          (currentTime + interval) (frames ++ [candidate]) (some candidate)
          (acceptedCount + 1)
      else
        extractLoop frameAt width height opts maxFrames duration interval fuel
          (currentTime + interval) frames lastAccepted acceptedCount

/-- `extractFrames` from App.tsx 722-791.  The promise rejects only from the
video `error` listener (with a "Video loading error" message); on `loadedmetadata`
the sampling loop always resolves with the accepted frames and the aspect ratio.
There is no inspection of `duration` beyond the loop bound. -/
def extractFrames (src : VideoSource) (framesPerSecond : ℚ) (maxFrames : ℕ)
    (opts : ExtractOptions) : Except String (List (List ℕ) × ℚ) :=
  match src with
  | .loadError msg => .error ("Video loading error: " ++ msg)
  | .media duration width height frameAt =>
    let interval : ℚ := 1 / framesPerSecond
    let fuel : ℕ := (⌈duration * framesPerSecond⌉).toNat + 2
    .ok (extractLoop frameAt width height opts maxFrames duration interval fuel
      0 [] none 0, (width : ℚ) / (height : ℚ))

/-! ## Prompt construction (`regenerateImage`, geminiService.ts 123-155)

JavaScript strings are modelled as `List Char`; `.length`, `.substring`,
`.trim`, `.lastIndexOf` translate to list operations. -/

/-- The whitespace class stripped by `String.prototype.trim` (the characters
that actually occur in prompts). -/
def isJsSpace (c : Char) : Bool :=
  c == ' ' || c == '\t' || c == '\n' || c == '\r'

/-- `s.trim()`: strip whitespace from both ends. -/
def jsTrim (s : List Char) : List Char :=
  ((s.dropWhile isJsSpace).reverse.dropWhile isJsSpace).reverse

/-- `s.lastIndexOf(' ')`, as `none` instead of `-1` when absent. -/
def lastSpaceIndex (s : List Char) : Option ℕ :=
  ((s.enum.filter (fun p => p.2 == ' ')).map (fun p => p.1)).getLast?

def MAX_PROMPT_LENGTH : ℕ := 500

/-- The truncated description computed by `regenerateImage`:
`remainingLength = 500 - stylePfx.length - 1`; when positive and exceeded, take
the first `remainingLength` characters, trim, and back up to the last full word;
when the style prefix alone is too long, drop the description entirely. -/
def truncatedDescription (stylePfx descr : List Char) : List Char :=
  let remainingLength : ℤ := (MAX_PROMPT_LENGTH : ℤ) - stylePfx.length - 1
  if 0 < remainingLength ∧ remainingLength < (descr.length : ℤ) then
    let t := jsTrim (descr.take remainingLength.toNat)
    match lastSpaceIndex t with
    | some idx => t.take idx
    | none => t
  else if remainingLength ≤ 0 then []
  else descr

/-- The final prompt handed to image generation:
```finalPrompt = `${stylePrefix} ${truncatedDescription}`.trim()``` -/
def buildFinalPrompt (stylePfx descr : List Char) : List Char :=
  jsTrim (stylePfx ++ [' '] ++ truncatedDescription stylePfx descr)

/-! ## Application state (App.tsx 30-47) -/

def SESSION_DESCRIBE_LIMIT : ℕ := 5

structure OriginalFrame where
  src : String
  prompt : Option String := none
  translatedPrompt : Option String := none
deriving DecidableEq

structure RegeneratedFrame where
  src : String
  prompt : String
deriving DecidableEq

inductive GalleryKind where
  | original
  | regenerated
deriving DecidableEq

/-- The React state relevant to the frame-lifecycle claims.  JavaScript `Set`s
preserve insertion order, so the selection sets are ordered duplicate-free lists. -/
structure AppState where
  originalFrames : List OriginalFrame
  regeneratedFrames : List (Option RegeneratedFrame)
  selectedFrames : List ℕ
  selectedRegenFrames : List ℕ
  activeSelection : Option GalleryKind
  describeCount : ℕ
  aspectRatio : Option ℚ
deriving DecidableEq

/-! ## Selection and deletion handlers (App.tsx 76-156) -/

/-- `handleFrameSelect` (App.tsx 76-89): clear the regenerated selection, toggle
the index in the original selection, and keep `activeSelection` in sync. -/
def handleFrameSelect (i : ℕ) (s : AppState) : AppState :=
  let newSelected :=
    if s.selectedFrames.contains i then s.selectedFrames.erase i
    else s.selectedFrames ++ [i]
  { s with selectedRegenFrames := [],
           selectedFrames := newSelected,
           activeSelection := if newSelected.isEmpty then none else some .original }

/-- `handleRegenFrameSelect` (App.tsx 91-104), mirror image of `handleFrameSelect`. -/
def handleRegenFrameSelect (i : ℕ) (s : AppState) : AppState :=
  let newSelected :=
    if s.selectedRegenFrames.contains i then s.selectedRegenFrames.erase i
    else s.selectedRegenFrames ++ [i]
  { s with selectedFrames := [],
           selectedRegenFrames := newSelected,
           activeSelection := if newSelected.isEmpty then none else some .regenerated }

/-- `handleSelectAllOriginal` (App.tsx 106-115). -/
def handleSelectAllOriginal (s : AppState) : AppState :=
  if s.selectedFrames.length = s.originalFrames.length then
    { s with selectedRegenFrames := [], selectedFrames := [], activeSelection := none }
  else
    { s with selectedRegenFrames := [],
             selectedFrames := List.range s.originalFrames.length,
             activeSelection := some .original }

/-- Indices of non-hole entries of the regenerated collection (App.tsx 119-121). -/
def validRegenIndices (s : AppState) : List ℕ :=
  ((s.regeneratedFrames.enum).filter (fun p => p.2.isSome)).map (fun p => p.1)

/-- `handleSelectAllRegenerated` (App.tsx 117-130). -/
def handleSelectAllRegenerated (s : AppState) : AppState :=
  if s.selectedRegenFrames.length = (validRegenIndices s).length then
    { s with selectedFrames := [], selectedRegenFrames := [], activeSelection := none }
  else
    { s with selectedFrames := [],
             selectedRegenFrames := validRegenIndices s,
             activeSelection := some .regenerated }

/-- `array.filter((_, i) => !selected.has(i))`: keep, in order, the entries whose
position is not selected. -/
def removeAtSelected (sel : List ℕ) (xs : List α) : List α :=
  ((xs.enum).filter (fun p => !(decide (p.1 ∈ sel)))).map Prod.snd

/-- Index-based removal as the specification words it: walking the list from
position `n`, drop exactly the entries whose position is selected and keep the
rest in their original relative order. -/
def specRemoveFrom (sel : List ℕ) : ℕ → List α → List α
  | _, [] => []
  | n, x :: rest =>
    if n ∈ sel then specRemoveFrom sel (n + 1) rest
    else x :: specRemoveFrom sel (n + 1) rest

/-- `handleDeleteSelected` (App.tsx 133-145): remove the selected indices from the
originals and (when the derived collection is non-empty) from the derived
collection in lockstep, then clear the selection. -/
def handleDeleteSelected (s : AppState) : AppState :=
  if s.selectedFrames.isEmpty then s
  else
    { s with originalFrames := removeAtSelected s.selectedFrames s.originalFrames,
             regeneratedFrames :=
               if 0 < s.regeneratedFrames.length then
                 removeAtSelected s.selectedFrames s.regeneratedFrames
               else [],
             selectedFrames := [],
             activeSelection := none }

/-- `newRegenerated[index] = null` for each selected index. -/
def clearAtSelected (sel : List ℕ) (xs : List (Option α)) : List (Option α) :=
  sel.foldl (fun acc i => acc.set i none) xs

/-- `handleDeleteRegenerated` (App.tsx 147-156): clear the selected derived frames
to holes (no compaction), then clear the selection. -/
def handleDeleteRegenerated (s : AppState) : AppState :=
  if s.selectedRegenFrames.isEmpty then s
  else
    { s with regeneratedFrames := clearAtSelected s.selectedRegenFrames s.regeneratedFrames,
             selectedRegenFrames := [],
             activeSelection := none }

/-! ## Regeneration (App.tsx 159-230) -/

/-- JavaScript truthiness of the `aspectRatio` state (`null` and `0` are falsy). -/
def aspectTruthy : Option ℚ → Bool
  | none => false
  | some r => decide (r ≠ 0)

/-- `handleRegenerate` (App.tsx 159-230).  The second component counts external
transform (`regenerateImage`) calls issued.  The entire regeneration body
(source lines 172-229) is commented out in the source: after the guard alerts,
the function alerts "The AI Regeneration feature is coming soon!" and returns,
so every path leaves the state unchanged and issues zero calls. -/
def handleRegenerate (indicesToProcess : Option (List ℕ)) (s : AppState) :
    AppState × ℕ :=
  if s.originalFrames.length = 0 ∨ aspectTruthy s.aspectRatio = false then
    (s, 0)
  else
    let indices := indicesToProcess.getD (List.range s.originalFrames.length)
    if indices.length = 0 then (s, 0)
    else (s, 0)

/-! ## Describe operations (App.tsx 264-296 and 334-393)

External `describeImage` calls are modelled by oracles: a call either returns a
description string (`some`) or throws (`none`).  Each operation returns
`(state, callsIssued, successfulDescribes)`. -/

/-- Prompt of the original frame at index `i`, if any. -/
def promptAt (origs : List OriginalFrame) (i : ℕ) : Option String :=
  (origs.get? i).bind OriginalFrame.prompt

/-- `handleDescribeImage` (App.tsx 264-296): reject (alert and throw) without a
call once `SESSION_DESCRIBE_LIMIT - describeCount <= 0`; otherwise issue one
describe call; on success attach the prompt to every frame with matching `src`
and increment the counter, on failure change nothing. -/
def handleDescribeImage (outcome : Option String) (currentSrc : String)
    (s : AppState) : AppState × ℕ × ℕ :=
  if SESSION_DESCRIBE_LIMIT ≤ s.describeCount then (s, 0, 0)
  else
    match outcome with
    | none => (s, 1, 0)
    | some d =>
      let fullPrompt := "Image Description:\n\n" ++ d
      ({ s with
          originalFrames := s.originalFrames.map (fun f =>
            if f.src = currentSrc then
              { f with prompt := some fullPrompt, translatedPrompt := none }
            else f),
          describeCount := s.describeCount + 1 }, 1, 1)

/-- The sequential describe loop of `handleBatchDescribe` (App.tsx 366-382).
`callIdx` numbers the external calls made so far in this batch; the oracle maps a
call number to its outcome.  Returns `(newOriginals, descriptionsMade, callsIssued)`.
A thrown call aborts the remainder (the `catch` swallows it); JavaScript would
also throw on reading a frame at an out-of-range index, before issuing a call. -/
def runBatchLoop (oracle : ℕ → Option String) :
    ℕ → List OriginalFrame → List ℕ → List OriginalFrame × ℕ × ℕ
  | _, origs, [] => (origs, 0, 0)
  | callIdx, origs, idx :: rest =>
    match origs.get? idx with
    | none => (origs, 0, 0)
    | some f =>
      match oracle callIdx with
      | none => (origs, 0, 1)
      | some d =>
        let origs' := origs.set idx
          { f with prompt := some ("Image Description:\n\n" ++ d),
                   translatedPrompt := none }
        let r := runBatchLoop oracle (callIdx + 1) origs' rest
        (r.1, r.2.1 + 1, r.2.2 + 1)

/-- Selected indices whose frame has no prompt yet (App.tsx 345). -/
def undescribedSelected (s : AppState) : List ℕ :=
  s.selectedFrames.filter (fun i => (promptAt s.originalFrames i).isNone)

/-- The indices actually processed by a batch describe: the undescribed selected
indices, truncated to the remaining session capacity (App.tsx 357-360). -/
def batchIndices (s : AppState) : List ℕ :=
  let remaining := SESSION_DESCRIBE_LIMIT - s.describeCount
  let u := undescribedSelected s
  if remaining < u.length then u.take remaining else u

/-- `handleBatchDescribe` (App.tsx 334-393).  Returns
`(state, callsIssued, descriptionsMade)`.  The `finally` block always adds
`descriptionsMade` to the counter and clears the selection. -/
def handleBatchDescribe (oracle : ℕ → Option String) (s : AppState) :
    AppState × ℕ × ℕ :=
  if s.selectedFrames.isEmpty then (s, 0, 0)
  else if SESSION_DESCRIBE_LIMIT ≤ s.describeCount then (s, 0, 0)
  else if (undescribedSelected s).isEmpty then
    ({ s with selectedFrames := [], activeSelection := none }, 0, 0)
  else
    let r := runBatchLoop oracle 0 s.originalFrames (batchIndices s)
    ({ s with originalFrames := r.1,
              describeCount := s.describeCount + r.2.1,
              selectedFrames := [],
              activeSelection := none }, r.2.2, r.2.1)

/-! ## Operation alphabet and session runs -/

/-- The selection-affecting operations named by the mutual-exclusivity invariant. -/
inductive SelOp where
  | toggleOriginal (i : ℕ)
  | toggleRegenerated (i : ℕ)
  | selectAllOriginal
  | selectAllRegenerated
  | deleteSelected
  | deleteRegenerated

def stepSel : SelOp → AppState → AppState
  | .toggleOriginal i, s => handleFrameSelect i s
  | .toggleRegenerated i, s => handleRegenFrameSelect i s
  | .selectAllOriginal, s => handleSelectAllOriginal s
  | .selectAllRegenerated, s => handleSelectAllRegenerated s
  | .deleteSelected, s => handleDeleteSelected s
  | .deleteRegenerated, s => handleDeleteRegenerated s

/-- At most one gallery has an active selection. -/
def selectionsExclusive (s : AppState) : Prop :=
  s.selectedFrames = [] ∨ s.selectedRegenFrames = []

/-- One user-level operation of a session, with the outcomes of any external
describe calls it makes baked in as data. -/
inductive AppOp where
  | frameSelect (i : ℕ)
  | regenFrameSelect (i : ℕ)
  | selectAllOriginal
  | selectAllRegenerated
  | deleteSelected
  | deleteRegenerated
  | regenerate (indices : Option (List ℕ))
  | describeOne (outcome : Option String) (src : String)
  | batchDescribe (oracle : ℕ → Option String)

/-- Step one operation; returns `(state, describeCallsIssued, successfulDescribes)`. -/
def stepOp : AppOp → AppState → AppState × ℕ × ℕ
  | .frameSelect i, s => (handleFrameSelect i s, 0, 0)
  | .regenFrameSelect i, s => (handleRegenFrameSelect i s, 0, 0)
  | .selectAllOriginal, s => (handleSelectAllOriginal s, 0, 0)
  | .selectAllRegenerated, s => (handleSelectAllRegenerated s, 0, 0)
  | .deleteSelected, s => (handleDeleteSelected s, 0, 0)
  | .deleteRegenerated, s => (handleDeleteRegenerated s, 0, 0)
  | .regenerate idxs, s => ((handleRegenerate idxs s).1, 0, 0)
  | .describeOne outcome src, s => handleDescribeImage outcome src s
  | .batchDescribe oracle, s => handleBatchDescribe oracle s

structure RunResult where
  state : AppState
  describeCalls : ℕ
  describeSuccesses : ℕ
  issuedPastLimit : Bool

/-- Run a session: fold the operations, accumulating external describe calls,
successful describes, and whether any operation issued a describe call from a
state already at (or past) the session limit. -/
def runOps : List AppOp → AppState → RunResult
  | [], s =>
    { state := s, describeCalls := 0, describeSuccesses := 0, issuedPastLimit := false }
  | op :: rest, s =>
    let r := stepOp op s
    let v : Bool :=
      decide (SESSION_DESCRIBE_LIMIT ≤ s.describeCount) && decide (0 < r.2.1)
    let rr := runOps rest r.1
    { state := rr.state,
      describeCalls := r.2.1 + rr.describeCalls,
      describeSuccesses := r.2.2 + rr.describeSuccesses,
      issuedPastLimit := v || rr.issuedPastLimit }

/-- A fresh session: no selections, no describes yet. -/
def mkInitState (origs : List OriginalFrame) (regs : List (Option RegeneratedFrame))
    (ar : Option ℚ) : AppState :=
  { originalFrames := origs, regeneratedFrames := regs, selectedFrames := [],
    selectedRegenFrames := [], activeSelection := none, describeCount := 0,
    aspectRatio := ar }

/-! ## Concrete states and oracles used by witnesses and counterexamples -/

def frameA : OriginalFrame := { src := "frameA" }
def frameB : OriginalFrame := { src := "frameB" }

/-- Two extracted frames, four of five describes already used, both selected. -/
def stateNearLimit : AppState :=
  { originalFrames := [frameA, frameB], regeneratedFrames := [],
    selectedFrames := [0, 1], selectedRegenFrames := [],
    activeSelection := some .original, describeCount := 4, aspectRatio := some (16 / 9) }

/-- A state whose session describe allowance is exhausted. -/
def stateAtLimit : AppState :=
  { originalFrames := [frameA, frameB], regeneratedFrames := [],
    selectedFrames := [0], selectedRegenFrames := [],
    activeSelection := some .original, describeCount := 5, aspectRatio := some (16 / 9) }

/-- A fresh state with two undescribed frames, both selected. -/
def stateFresh : AppState :=
  { originalFrames := [frameA, frameB], regeneratedFrames := [],
    selectedFrames := [0, 1], selectedRegenFrames := [],
    activeSelection := some .original, describeCount := 0, aspectRatio := some (16 / 9) }

/-- Every describe call succeeds. -/
def oracleAllOk : ℕ → Option String := fun _ => some ("a description")

/-- The first describe call succeeds, every later call throws. -/
def oracleFailSecond : ℕ → Option String :=
  fun n => if n = 0 then some ("a description") else none

/-- A 3x5 candidate buffer (15 pixels, 60 RGBA bytes) differing from
`bufPrev15` by 9 in the red byte of pixel 0. -/
def bufCur15 : List ℕ := 9 :: List.replicate 59 0
def bufPrev15 : List ℕ := List.replicate 60 0

/-- A 5x2 buffer (10 pixels, a multiple of the sampling stride). -/
def buf40 : List ℕ := List.replicate 40 0

/-- A 3x3 all-black RGBA buffer. -/
def buf36 : List ℕ := List.replicate 36 0

/-- A decoder that reports zero duration and decodes a 3x3 black frame
at every timestamp. -/
def zeroDurationSource : VideoSource := .media 0 3 3 (fun _ => buf36)

def extractOptsZero : ExtractOptions := { blurThreshold := 0, similarityThreshold := 1 }

def rf (n : String) : Option RegeneratedFrame := some { src := n, prompt := n }

/-- Five originals with a fully populated derived collection, originals 1 and 3
selected (Scenario D). -/
def stateFive : AppState :=
  { originalFrames := [{ src := "o0" }, { src := "o1" }, { src := "o2" },
      { src := "o3" }, { src := "o4" }],
    regeneratedFrames := [rf "d0", rf "d1", rf "d2", rf "d3", rf "d4"],
    selectedFrames := [1, 3], selectedRegenFrames := [],
    activeSelection := some .original, describeCount := 0, aspectRatio := some 1 }

/-- The cartoon style prompt (geminiService.ts 96), 140 characters. -/
def stylePfxSample : List Char :=
  ("A vibrant, colorful, bold-lined cartoon illustration in a playful style. " ++
   "Cel-shaded with expressive characters and clean lines. The scene is:").toList

/-- A 600-character description, longer than any remaining prompt budget. -/
def longDescr : List Char := List.replicate 600 'x'

end VideoFrameExtractor

namespace VideoFrameExtractor

/-! # Theorems -/

/-! ## Helper lemmas -/

theorem handleRegenerate_eq (idxs : Option (List ℕ)) (s : AppState) :
    handleRegenerate idxs s = (s, 0) := by
  unfold handleRegenerate
  simp only [ite_self]

/-! ## Claim C1 -/

/-- Claim C1: in a state with at least one original frame and a captured aspect
ratio, `handleRegenerate` issues zero external transform calls and leaves the
original frames, the derived frames, both selection sets and the describe counter
unchanged (the feature is disabled and returns right after an alert). -/
theorem C1_regenerate_disabled (s : AppState) (idxs : Option (List ℕ))
    (h1 : s.originalFrames ≠ []) (h2 : s.aspectRatio.isSome = true) :
    (handleRegenerate idxs s).2 = 0 ∧
    (handleRegenerate idxs s).1.originalFrames = s.originalFrames ∧
    (handleRegenerate idxs s).1.regeneratedFrames = s.regeneratedFrames ∧
    (handleRegenerate idxs s).1.selectedFrames = s.selectedFrames ∧
    (handleRegenerate idxs s).1.selectedRegenFrames = s.selectedRegenFrames ∧
    (handleRegenerate idxs s).1.describeCount = s.describeCount := by
  rw [handleRegenerate_eq]
  exact ⟨rfl, rfl, rfl, rfl, rfl, rfl⟩

/-- Witness for C1 at a concrete state satisfying both preconditions. -/
theorem C1_regenerate_disabled_witness :
    (handleRegenerate (some [0]) stateFresh).2 = 0 ∧
    (handleRegenerate (some [0]) stateFresh).1.originalFrames = stateFresh.originalFrames ∧
    (handleRegenerate (some [0]) stateFresh).1.regeneratedFrames = stateFresh.regeneratedFrames ∧
    (handleRegenerate (some [0]) stateFresh).1.selectedFrames = stateFresh.selectedFrames ∧
    (handleRegenerate (some [0]) stateFresh).1.selectedRegenFrames = stateFresh.selectedRegenFrames ∧
    (handleRegenerate (some [0]) stateFresh).1.describeCount = stateFresh.describeCount :=
  C1_regenerate_disabled stateFresh (some [0]) (by decide) (by decide)

theorem runBatchLoop_le (oracle : ℕ → Option String) :
    ∀ (idxs : List ℕ) (k : ℕ) (origs : List OriginalFrame),
      (runBatchLoop oracle k origs idxs).2.1 ≤ idxs.length ∧
      (runBatchLoop oracle k origs idxs).2.2 ≤ idxs.length := by
  intro idxs
  induction idxs with
  | nil => intro k origs; simp [runBatchLoop]
  | cons idx rest ih =>
    intro k origs
    simp only [runBatchLoop, List.length_cons]
    cases h1 : origs.get? idx with
    | none => simp
    | some f =>
      cases h2 : oracle k with
      | none => simp
      | some d =>
        dsimp only
        obtain ⟨ha, hb⟩ := ih (k + 1) (origs.set idx
          { f with prompt := some ("Image Description:\n\n" ++ d),
                   translatedPrompt := none })
        omega

theorem batchIndices_length_le (s : AppState) :
    (batchIndices s).length ≤ SESSION_DESCRIBE_LIMIT - s.describeCount := by
  simp only [batchIndices]
  split
  · next h => simp [List.length_take]
  · next h => omega

theorem handleBatchDescribe_describeCount (oracle : ℕ → Option String) (s : AppState) :
    (handleBatchDescribe oracle s).1.describeCount
      = s.describeCount + (handleBatchDescribe oracle s).2.2 := by
  unfold handleBatchDescribe
  split_ifs <;> rfl

theorem handleBatchDescribe_calls_le (oracle : ℕ → Option String) (s : AppState) :
    (handleBatchDescribe oracle s).2.1 ≤ (batchIndices s).length := by
  unfold handleBatchDescribe
  split_ifs
  · exact Nat.zero_le _
  · exact Nat.zero_le _
  · exact Nat.zero_le _
  · exact (runBatchLoop_le oracle (batchIndices s) 0 s.originalFrames).2

theorem handleBatchDescribe_made_le (oracle : ℕ → Option String) (s : AppState) :
    (handleBatchDescribe oracle s).2.2 ≤ (batchIndices s).length := by
  unfold handleBatchDescribe
  split_ifs
  · exact Nat.zero_le _
  · exact Nat.zero_le _
  · exact Nat.zero_le _
  · exact (runBatchLoop_le oracle (batchIndices s) 0 s.originalFrames).1

theorem handleBatchDescribe_at_limit (oracle : ℕ → Option String) (s : AppState)
    (h : SESSION_DESCRIBE_LIMIT ≤ s.describeCount) :
    handleBatchDescribe oracle s = (s, 0, 0) := by
  unfold handleBatchDescribe
  split_ifs <;> rfl

theorem handleSelectAllOriginal_count (s : AppState) :
    (handleSelectAllOriginal s).describeCount = s.describeCount := by
  unfold handleSelectAllOriginal
  split <;> rfl

theorem handleSelectAllRegenerated_count (s : AppState) :
    (handleSelectAllRegenerated s).describeCount = s.describeCount := by
  unfold handleSelectAllRegenerated
  split <;> rfl

theorem handleDeleteSelected_count (s : AppState) :
    (handleDeleteSelected s).describeCount = s.describeCount := by
  unfold handleDeleteSelected
  split <;> rfl

theorem handleDeleteRegenerated_count (s : AppState) :
    (handleDeleteRegenerated s).describeCount = s.describeCount := by
  unfold handleDeleteRegenerated
  split <;> rfl

/-- Per-operation accounting: the counter moves by exactly the operation's
successful describes; no describe call is issued from a state at the limit;
the limit is preserved. -/
theorem stepOp_describe_spec (op : AppOp) (s : AppState) :
    (stepOp op s).1.describeCount = s.describeCount + (stepOp op s).2.2 ∧
    (SESSION_DESCRIBE_LIMIT ≤ s.describeCount → (stepOp op s).2.1 = 0) ∧
    (s.describeCount ≤ SESSION_DESCRIBE_LIMIT →
      (stepOp op s).1.describeCount ≤ SESSION_DESCRIBE_LIMIT) := by
  cases op with
  | frameSelect i => exact ⟨rfl, fun _ => rfl, fun h => h⟩
  | regenFrameSelect i => exact ⟨rfl, fun _ => rfl, fun h => h⟩
  | selectAllOriginal =>
    have hcnt := handleSelectAllOriginal_count s
    refine ⟨?_, fun _ => rfl, fun h => ?_⟩
    · show (handleSelectAllOriginal s).describeCount = s.describeCount + 0
      omega
    · show (handleSelectAllOriginal s).describeCount ≤ SESSION_DESCRIBE_LIMIT
      omega
  | selectAllRegenerated =>
    have hcnt := handleSelectAllRegenerated_count s
    refine ⟨?_, fun _ => rfl, fun h => ?_⟩
    · show (handleSelectAllRegenerated s).describeCount = s.describeCount + 0
      omega
    · show (handleSelectAllRegenerated s).describeCount ≤ SESSION_DESCRIBE_LIMIT
      omega
  | deleteSelected =>
    have hcnt := handleDeleteSelected_count s
    refine ⟨?_, fun _ => rfl, fun h => ?_⟩
    · show (handleDeleteSelected s).describeCount = s.describeCount + 0
      omega
    · show (handleDeleteSelected s).describeCount ≤ SESSION_DESCRIBE_LIMIT
      omega
  | deleteRegenerated =>
    have hcnt := handleDeleteRegenerated_count s
    refine ⟨?_, fun _ => rfl, fun h => ?_⟩
    · show (handleDeleteRegenerated s).describeCount = s.describeCount + 0
      omega
    · show (handleDeleteRegenerated s).describeCount ≤ SESSION_DESCRIBE_LIMIT
      omega
  | regenerate idxs =>
    refine ⟨?_, fun _ => rfl, fun h => ?_⟩
    · show (handleRegenerate idxs s).1.describeCount = s.describeCount + 0
      rw [handleRegenerate_eq]
      rfl
    · show (handleRegenerate idxs s).1.describeCount ≤ SESSION_DESCRIBE_LIMIT
      rw [handleRegenerate_eq]
      exact h
  | describeOne outcome src =>
    show (handleDescribeImage outcome src s).1.describeCount
        = s.describeCount + (handleDescribeImage outcome src s).2.2 ∧
      (SESSION_DESCRIBE_LIMIT ≤ s.describeCount →
        (handleDescribeImage outcome src s).2.1 = 0) ∧
      (s.describeCount ≤ SESSION_DESCRIBE_LIMIT →
        (handleDescribeImage outcome src s).1.describeCount ≤ SESSION_DESCRIBE_LIMIT)
    unfold handleDescribeImage
    split
    · exact ⟨rfl, fun _ => rfl, fun h => h⟩
    · next h1 =>
      cases outcome with
      | none => exact ⟨rfl, fun h => absurd h h1, fun h => h⟩
      | some d =>
        refine ⟨rfl, fun h => absurd h h1, fun _ => ?_⟩
        have : s.describeCount < SESSION_DESCRIBE_LIMIT := Nat.lt_of_not_le h1
        simpa using this
  | batchDescribe oracle =>
    have hc := handleBatchDescribe_describeCount oracle s
    have hm := handleBatchDescribe_made_le oracle s
    have hl := batchIndices_length_le s
    refine ⟨hc, fun h => ?_, fun h => ?_⟩
    · show (handleBatchDescribe oracle s).2.1 = 0
      rw [handleBatchDescribe_at_limit oracle s h]
    · show (handleBatchDescribe oracle s).1.describeCount ≤ SESSION_DESCRIBE_LIMIT
      omega

theorem runOps_describe_spec (ops : List AppOp) :
    ∀ s : AppState, s.describeCount ≤ SESSION_DESCRIBE_LIMIT →
      (runOps ops s).state.describeCount
        = s.describeCount + (runOps ops s).describeSuccesses ∧
      (runOps ops s).state.describeCount ≤ SESSION_DESCRIBE_LIMIT ∧
      (runOps ops s).issuedPastLimit = false := by
  induction ops with
  | nil => intro s h; exact ⟨by simp [runOps], by simpa [runOps] using h, by simp [runOps]⟩
  | cons op rest ih =>
    intro s h
    obtain ⟨hstep, hzero, hle⟩ := stepOp_describe_spec op s
    obtain ⟨ih1, ih2, ih3⟩ := ih (stepOp op s).1 (hle h)
    have hv : (decide (SESSION_DESCRIBE_LIMIT ≤ s.describeCount)
        && decide (0 < (stepOp op s).2.1)) = false := by
      by_cases h5 : SESSION_DESCRIBE_LIMIT ≤ s.describeCount
      · simp [hzero h5]
      · simp [h5]
    refine ⟨?_, ?_, ?_⟩
    · show (runOps rest (stepOp op s).1).state.describeCount
        = s.describeCount + ((stepOp op s).2.2 + (runOps rest (stepOp op s).1).describeSuccesses)
      omega
    · exact ih2
    · show (decide (SESSION_DESCRIBE_LIMIT ≤ s.describeCount)
          && decide (0 < (stepOp op s).2.1)
          || (runOps rest (stepOp op s).1).issuedPastLimit) = false
      rw [hv, ih3]
      rfl

/-! ## Claim C4 -/

/-- Claim C4: over any session (any sequence of operations from a fresh state),
the describe counter equals the number of successfully completed describe calls,
it never exceeds the session limit of 5, and no describe call is ever issued by
an operation that starts at (or past) the limit. -/
theorem C4_session_describe_quota (ops : List AppOp) (origs : List OriginalFrame)
    (regs : List (Option RegeneratedFrame)) (ar : Option ℚ) :
    (runOps ops (mkInitState origs regs ar)).state.describeCount
      = (runOps ops (mkInitState origs regs ar)).describeSuccesses ∧
    (runOps ops (mkInitState origs regs ar)).state.describeCount
      ≤ SESSION_DESCRIBE_LIMIT ∧
    (runOps ops (mkInitState origs regs ar)).issuedPastLimit = false := by
  have h := runOps_describe_spec ops (mkInitState origs regs ar) (by simp [mkInitState])
  simpa [mkInitState] using h

/-! ## Claim C2 -/

/-- Counterexample to C2 as stated: with `consumed = 4`, limit 5, and a batch of
2 selected undescribed frames (`4 + 2 > 5`), the batch is not rejected — one
external describe call is issued and the counter moves to 5. -/
theorem C2_counterexample :
    SESSION_DESCRIBE_LIMIT < stateNearLimit.describeCount + stateNearLimit.selectedFrames.length ∧
    (handleBatchDescribe oracleAllOk stateNearLimit).2.1 = 1 ∧
    (handleBatchDescribe oracleAllOk stateNearLimit).1.describeCount = 5 := by
  decide

/-- Claim C2, amended: the batch is rejected before any external call (state and
counter untouched) only when `consumed ≥ limit`; when `consumed < limit` a batch
that would exceed the remainder is truncated to the remaining capacity and
proceeds, so at most `limit - consumed` calls are issued and the counter never
exceeds the limit. -/
theorem C2_quota_reject_only_at_limit (s : AppState) (oracle : ℕ → Option String) :
    (SESSION_DESCRIBE_LIMIT ≤ s.describeCount →
      handleBatchDescribe oracle s = (s, 0, 0)) ∧
    (s.describeCount < SESSION_DESCRIBE_LIMIT →
      (handleBatchDescribe oracle s).2.1 ≤ SESSION_DESCRIBE_LIMIT - s.describeCount ∧
      (handleBatchDescribe oracle s).1.describeCount ≤ SESSION_DESCRIBE_LIMIT) := by
  constructor
  · exact handleBatchDescribe_at_limit oracle s
  · intro h
    have hc := handleBatchDescribe_describeCount oracle s
    have hcalls := handleBatchDescribe_calls_le oracle s
    have hm := handleBatchDescribe_made_le oracle s
    have hl := batchIndices_length_le s
    exact ⟨by omega, by omega⟩

/-- Witness for C2 (amended): at the limit the batch is a no-op with zero calls;
below the limit the counter stays within the limit. -/
theorem C2_quota_reject_only_at_limit_witness :
    handleBatchDescribe oracleAllOk stateAtLimit = (stateAtLimit, 0, 0) ∧
    (handleBatchDescribe oracleAllOk stateNearLimit).2.1
      ≤ SESSION_DESCRIBE_LIMIT - stateNearLimit.describeCount ∧
    (handleBatchDescribe oracleAllOk stateNearLimit).1.describeCount
      ≤ SESSION_DESCRIBE_LIMIT :=
  ⟨(C2_quota_reject_only_at_limit stateAtLimit oracleAllOk).1 (by decide),
   (C2_quota_reject_only_at_limit stateNearLimit oracleAllOk).2 (by decide)⟩

/-! ## Claim C3 -/

theorem promptAt_set_ne (origs : List OriginalFrame) (idx : ℕ) (f' : OriginalFrame)
    (a : ℕ) (h : idx ≠ a) : promptAt (origs.set idx f') a = promptAt origs a := by
  unfold promptAt
  rw [List.get?_set_ne f' origs h]

theorem promptAt_set_self (origs : List OriginalFrame) (idx : ℕ) (f' : OriginalFrame)
    (h : idx < origs.length) : promptAt (origs.set idx f') idx = f'.prompt := by
  unfold promptAt
  rw [List.get?_set_eq_of_lt f' h]
  rfl

/-- A prompt once present is never cleared by the rest of a batch loop. -/
theorem runBatchLoop_keeps_prompt (oracle : ℕ → Option String) :
    ∀ (idxs : List ℕ) (k : ℕ) (origs : List OriginalFrame) (a : ℕ),
      promptAt origs a ≠ none →
      promptAt (runBatchLoop oracle k origs idxs).1 a ≠ none := by
  intro idxs
  induction idxs with
  | nil => intro k origs a h; simpa [runBatchLoop] using h
  | cons idx rest ih =>
    intro k origs a h
    simp only [runBatchLoop]
    cases h1 : origs.get? idx with
    | none => simpa using h
    | some f =>
      cases h2 : oracle k with
      | none => simpa using h
      | some d =>
        dsimp only
        apply ih
        by_cases hia : idx = a
        · subst hia
          have hlt : idx < origs.length := by
            by_contra hge
            rw [List.get?_eq_none.mpr (Nat.le_of_not_lt hge)] at h1
            cases h1
          rw [promptAt_set_self _ _ _ hlt]
          simp
        · rw [promptAt_set_ne _ _ _ _ hia]
          exact h

/-- Behaviour of the batch loop when the external calls succeed `j` times and the
next call throws before the target list is exhausted: exactly `j + 1` calls are
issued, exactly `j` descriptions are recorded, and the first `j` processed
indices keep their freshly written prompts. -/
theorem runBatchLoop_fail_spec (oracle : ℕ → Option String) :
    ∀ (j : ℕ) (idxs : List ℕ) (k : ℕ) (origs : List OriginalFrame),
      (∀ i, i < j → (oracle (k + i)).isSome = true) →
      oracle (k + j) = none →
      j < idxs.length →
      (∀ a ∈ idxs, a < origs.length) →
      (runBatchLoop oracle k origs idxs).2.1 = j ∧
      (runBatchLoop oracle k origs idxs).2.2 = j + 1 ∧
      ∀ a ∈ idxs.take j, promptAt (runBatchLoop oracle k origs idxs).1 a ≠ none := by
  intro j
  induction j with
  | zero =>
    intro idxs k origs hok hfail hj hrange
    cases idxs with
    | nil => simp at hj
    | cons idx rest =>
      have hidx : idx < origs.length := hrange idx (List.mem_cons_self _ _)
      rw [Nat.add_zero] at hfail
      simp only [runBatchLoop]
      cases h1 : origs.get? idx with
      | none =>
        rw [List.get?_eq_none] at h1
        omega
      | some f =>
        cases h2 : oracle k with
        | none => exact ⟨rfl, rfl, by simp⟩
        | some d => rw [h2] at hfail; cases hfail
  | succ j ihj =>
    intro idxs k origs hok hfail hj hrange
    cases idxs with
    | nil => simp at hj
    | cons idx rest =>
      have hidx : idx < origs.length := hrange idx (List.mem_cons_self _ _)
      simp only [runBatchLoop]
      cases h1 : origs.get? idx with
      | none =>
        rw [List.get?_eq_none] at h1
        omega
      | some f =>
        have h0 : (oracle (k + 0)).isSome = true := hok 0 (Nat.succ_pos j)
        rw [Nat.add_zero] at h0
        cases h2 : oracle k with
        | none => rw [h2] at h0; cases h0
        | some d =>
          dsimp only
          obtain ⟨r1, r2, r3⟩ := ihj rest (k + 1)
            (origs.set idx { f with prompt := some ("Image Description:\n\n" ++ d),
                                    translatedPrompt := none })
            (by
              intro i hi
              have hh := hok (i + 1) (by omega)
              rwa [show k + (i + 1) = k + 1 + i by omega] at hh)
            (by rwa [show k + (j + 1) = k + 1 + j by omega] at hfail)
            (by simpa using Nat.lt_of_succ_lt_succ (by simpa using hj))
            (by
              intro a ha
              have := hrange a (List.mem_cons_of_mem _ ha)
              simpa [List.length_set] using this)
          refine ⟨by omega, by omega, ?_⟩
          intro a ha
          rw [List.take_succ_cons] at ha
          rcases List.mem_cons.mp ha with rfl | ha'
          · apply runBatchLoop_keeps_prompt
            rw [promptAt_set_self _ _ _ hidx]
            simp
          · exact r3 a ha'

/-- Counterexample to C3 as stated: a batch over the 2 undescribed selected
indices whose second external call throws leaves the counter at `0 + 1`
(the one completed call), not at the full batch size `0 + 2`. -/
theorem C3_counterexample :
    (batchIndices stateFresh).length = 2 ∧
    (handleBatchDescribe oracleFailSecond stateFresh).1.describeCount
      = stateFresh.describeCount + 1 ∧
    (handleBatchDescribe oracleFailSecond stateFresh).1.describeCount
      ≠ stateFresh.describeCount + 2 := by
  decide

/-- Claim C3, amended: if a quota-metered batch fails partway — the external
call numbered `j + 1` throws after `j` successes, with more targets remaining —
then the counter afterwards reflects exactly the `j` completed calls (there is
no up-front reservation of the full batch size), `j + 1` calls were issued, and
the results already written for the first `j` processed indices are kept
(no rollback). -/
theorem C3_midbatch_failure_charges_completed (s : AppState)
    (oracle : ℕ → Option String) (j : ℕ)
    (hcap : s.describeCount < SESSION_DESCRIBE_LIMIT)
    (hne : undescribedSelected s ≠ [])
    (hok : ∀ i, i < j → (oracle i).isSome = true)
    (hfail : oracle j = none)
    (hj : j < (batchIndices s).length)
    (hrange : ∀ a ∈ batchIndices s, a < s.originalFrames.length) :
    (handleBatchDescribe oracle s).1.describeCount = s.describeCount + j ∧
    (handleBatchDescribe oracle s).2.1 = j + 1 ∧
    ∀ a ∈ (batchIndices s).take j,
      promptAt (handleBatchDescribe oracle s).1.originalFrames a ≠ none := by
  have hselne : ¬s.selectedFrames.isEmpty = true := by
    intro hs
    exact hne (by simp [undescribedSelected, List.isEmpty_iff.mp hs])
  have hune : ¬(undescribedSelected s).isEmpty = true := by
    intro hu
    exact hne (List.isEmpty_iff.mp hu)
  obtain ⟨r1, r2, r3⟩ := runBatchLoop_fail_spec oracle j (batchIndices s) 0
    s.originalFrames
    (by intro i hi; simpa using hok i hi)
    (by simpa using hfail)
    hj hrange
  unfold handleBatchDescribe
  split_ifs with h1
  · exact absurd h1 (Nat.not_le.mpr hcap)
  · dsimp only
    exact ⟨by omega, r2, r3⟩

/-- Witness for C3 (amended) on the concrete Scenario-C-shaped run: two
undescribed targets, first call succeeds, second throws. -/
theorem C3_midbatch_failure_witness :
    (handleBatchDescribe oracleFailSecond stateFresh).1.describeCount
      = stateFresh.describeCount + 1 ∧
    (handleBatchDescribe oracleFailSecond stateFresh).2.1 = 1 + 1 ∧
    promptAt (handleBatchDescribe oracleFailSecond stateFresh).1.originalFrames 0
      ≠ none := by
  obtain ⟨h1, h2, h3⟩ := C3_midbatch_failure_charges_completed stateFresh
    oracleFailSecond 1 (by decide) (by decide) (by decide) (by decide)
    (by decide) (by decide)
  exact ⟨h1, h2, h3 0 (by decide)⟩

/-! ## Claim C8 -/

theorem removeAt_eq_specAux (sel : List ℕ) {α : Type} :
    ∀ (n : ℕ) (xs : List α),
      ((xs.enumFrom n).filter (fun p => !(decide (p.1 ∈ sel)))).map Prod.snd
        = specRemoveFrom sel n xs := by
  intro n xs
  induction xs generalizing n with
  | nil => simp [specRemoveFrom]
  | cons x t ih =>
    simp only [List.enumFrom, List.filter_cons, specRemoveFrom]
    by_cases hc : n ∈ sel
    · simp [hc, ih]
    · simp [hc, ih]

theorem removeAtSelected_eq_spec (sel : List ℕ) {α : Type} (xs : List α) :
    removeAtSelected sel xs = specRemoveFrom sel 0 xs := by
  unfold removeAtSelected
  exact removeAt_eq_specAux sel 0 xs

/-- Removing the same index set from two equal-length lists removes paired
entries together: the removal commutes with `zip`. -/
theorem specRemoveFrom_zip (sel : List ℕ) {α β : Type} :
    ∀ (n : ℕ) (as : List α) (bs : List β), as.length = bs.length →
      specRemoveFrom sel n (as.zip bs)
        = (specRemoveFrom sel n as).zip (specRemoveFrom sel n bs) := by
  intro n as
  induction as generalizing n with
  | nil =>
    intro bs h
    cases bs with
    | nil => simp [specRemoveFrom]
    | cons b bt => simp at h
  | cons a at' ih =>
    intro bs h
    cases bs with
    | nil => simp at h
    | cons b bt =>
      simp only [List.zip_cons_cons, specRemoveFrom]
      have ihh := ih (n + 1) bt (by simpa using h)
      simp only [List.zip] at ihh
      by_cases hc : n ∈ sel
      · simp [hc, ihh, List.zip]
      · simp [hc, ihh, List.zip]

theorem specRemoveFrom_length_eq (sel : List ℕ) {α β : Type} :
    ∀ (n : ℕ) (as : List α) (bs : List β), as.length = bs.length →
      (specRemoveFrom sel n as).length = (specRemoveFrom sel n bs).length := by
  intro n as
  induction as generalizing n with
  | nil =>
    intro bs h
    cases bs with
    | nil => rfl
    | cons b bt => simp at h
  | cons a at' ih =>
    intro bs h
    cases bs with
    | nil => simp at h
    | cons b bt =>
      simp only [specRemoveFrom]
      by_cases hc : n ∈ sel
      · simp [hc, ih (n + 1) bt (by simpa using h)]
      · simp [hc, ih (n + 1) bt (by simpa using h)]

/-- Claim C8: with a non-empty selection and a derived collection of the same
length as the originals, delete-selected removes exactly the frames at selected
positions from the originals (compacting, order preserved), removes the entries
at the same positions from the derived collection in lockstep, and keeps the
two collections positionally aligned: zipping after deletion equals deleting
from the zipped pairs, and the lengths agree. -/
theorem C8_delete_selected_lockstep (s : AppState)
    (hsel : s.selectedFrames ≠ [])
    (hlen : s.regeneratedFrames.length = s.originalFrames.length) :
    (handleDeleteSelected s).originalFrames
      = specRemoveFrom s.selectedFrames 0 s.originalFrames ∧
    (handleDeleteSelected s).regeneratedFrames
      = specRemoveFrom s.selectedFrames 0 s.regeneratedFrames ∧
    (handleDeleteSelected s).originalFrames.zip
        (handleDeleteSelected s).regeneratedFrames
      = specRemoveFrom s.selectedFrames 0
          (s.originalFrames.zip s.regeneratedFrames) ∧
    (handleDeleteSelected s).originalFrames.length
      = (handleDeleteSelected s).regeneratedFrames.length := by
  have hne : ¬s.selectedFrames.isEmpty = true := fun h => hsel (List.isEmpty_iff.mp h)
  unfold handleDeleteSelected
  split_ifs with h2
  · refine ⟨removeAtSelected_eq_spec _ _, removeAtSelected_eq_spec _ _, ?_, ?_⟩
    · rw [removeAtSelected_eq_spec, removeAtSelected_eq_spec]
      exact (specRemoveFrom_zip s.selectedFrames 0 s.originalFrames
        s.regeneratedFrames hlen.symm).symm
    · rw [removeAtSelected_eq_spec, removeAtSelected_eq_spec]
      exact specRemoveFrom_length_eq s.selectedFrames 0 s.originalFrames
        s.regeneratedFrames hlen.symm
  · have hregs : s.regeneratedFrames = [] := List.length_eq_zero.mp (by omega)
    have horig : s.originalFrames = [] := List.length_eq_zero.mp (by omega)
    rw [hregs, horig]
    refine ⟨?_, ?_, ?_, ?_⟩ <;> simp [removeAtSelected_eq_spec, specRemoveFrom]

/-- Witness for C8 on Scenario D: deleting originals 1 and 3 from five lockstep
pairs leaves three originals and three correspondingly re-indexed derived slots. -/
theorem C8_delete_selected_lockstep_witness :
    (handleDeleteSelected stateFive).originalFrames
      = specRemoveFrom stateFive.selectedFrames 0 stateFive.originalFrames ∧
    (handleDeleteSelected stateFive).regeneratedFrames
      = specRemoveFrom stateFive.selectedFrames 0 stateFive.regeneratedFrames ∧
    (handleDeleteSelected stateFive).originalFrames.zip
        (handleDeleteSelected stateFive).regeneratedFrames
      = specRemoveFrom stateFive.selectedFrames 0
          (stateFive.originalFrames.zip stateFive.regeneratedFrames) ∧
    (handleDeleteSelected stateFive).originalFrames.length
      = (handleDeleteSelected stateFive).regeneratedFrames.length ∧
    (handleDeleteSelected stateFive).originalFrames.length = 3 := by
  obtain ⟨h1, h2, h3, h4⟩ := C8_delete_selected_lockstep stateFive
    (by decide) (by decide)
  exact ⟨h1, h2, h3, h4, by decide⟩

/-! ## Claim C9 -/

/-- Claim C9: after every selection operation (toggle-select in either gallery,
select-all on either gallery, or either delete operation) at most one of the two
selection sets is non-empty: selecting in one collection always clears the other,
and a delete empties its own collection's selection. -/
theorem C9_selection_mutual_exclusion (op : SelOp) (s : AppState) :
    selectionsExclusive (stepSel op s) := by
  unfold selectionsExclusive
  cases op with
  | toggleOriginal i => exact Or.inr rfl
  | toggleRegenerated i => exact Or.inl rfl
  | selectAllOriginal =>
    simp only [stepSel, handleSelectAllOriginal]
    split <;> exact Or.inr rfl
  | selectAllRegenerated =>
    simp only [stepSel, handleSelectAllRegenerated]
    split <;> exact Or.inl rfl
  | deleteSelected =>
    simp only [stepSel, handleDeleteSelected]
    split
    · next h => exact Or.inl (List.isEmpty_iff.mp h)
    · exact Or.inl rfl
  | deleteRegenerated =>
    simp only [stepSel, handleDeleteRegenerated]
    split
    · next h => exact Or.inr (List.isEmpty_iff.mp h)
    · exact Or.inr rfl

/-! ## Claim C5 -/

/-- Counterexample to C5 as stated: on a 3x5 buffer (15 pixels) the loop samples
2 pixels, but the code divides by `(15 / 10) × 3 = 4.5`, not by the
sampled-pixel-count divisor `2 × 3 = 6`.  With a difference sum of 9 and
threshold `9/5`, the code does not reject while the specification's formula
does. -/
theorem C5_counterexample :
    areFramesSimilar bufCur15 (some bufPrev15) 3 5 (9 / 5) = false ∧
    similarRejectSpec bufCur15 (some bufPrev15) 3 5 (9 / 5) = true := by
  have hd : sampledDiffSum bufCur15 bufPrev15 (3 * 5) = 9 := by decide
  constructor
  · unfold areFramesSimilar
    norm_num [hd]
  · unfold similarRejectSpec
    norm_num [hd]

/-- Claim C5, amended: with no previously accepted frame the similarity predicate
never rejects.  Otherwise it samples every 10th pixel by linear buffer offset and
sums the absolute R/G/B channel differences, but divides by
`((numPixels / 10) × 3)` using exact (real) division of the pixel count by the
stride rather than by the sampled-pixel count; the two divisors — and hence the
two predicates — agree exactly when the pixel count is a multiple of 10. -/
theorem C5_similarity_divisor (cur prev : List ℕ) (w h : ℕ) (t : ℚ) :
    areFramesSimilar cur none w h t = false ∧
    (10 ∣ w * h →
      areFramesSimilar cur (some prev) w h t
        = similarRejectSpec cur (some prev) w h t) := by
  refine ⟨rfl, fun hdvd => ?_⟩
  obtain ⟨m, hm⟩ := hdvd
  unfold areFramesSimilar similarRejectSpec
  by_cases hz : w * h = 0
  · simp [hz]
  · have hscne : (w * h + 9) / 10 ≠ 0 := by omega
    have hsc : (w * h + 9) / 10 = m := by omega
    have hq : ((w * h : ℕ) : ℚ) / 10 = (((w * h + 9) / 10 : ℕ) : ℚ) := by
      rw [hsc, hm]
      push_cast
      ring
    dsimp only
    rw [hq]
    split_ifs
    rfl

/-- Witness for C5 (amended) on a 10-pixel buffer, where the pixel count is a
multiple of the stride and the two formulas agree. -/
theorem C5_similarity_divisor_witness :
    areFramesSimilar buf40 none 5 2 1 = false ∧
    areFramesSimilar buf40 (some buf40) 5 2 1
      = similarRejectSpec buf40 (some buf40) 5 2 1 :=
  ⟨(C5_similarity_divisor buf40 buf40 5 2 1).1,
   (C5_similarity_divisor buf40 buf40 5 2 1).2 (by decide)⟩

/-! ## Claim C6 -/

theorem sum_map_const_range (n c : ℕ) :
    ((List.range n).map (fun _ => c)).sum = n * c := by
  simp [List.map_const']

theorem lapValues_length (data : List ℕ) (w h : ℕ) :
    (lapValues data w h).length = (h - 2) * (w - 2) := by
  unfold lapValues
  rw [List.length_flatten, List.map_map]
  have hrow : (List.length ∘ fun j => (List.range (w - 2)).map (fun i =>
      let x := i + 1
      let y := j + 1
      ((grayAt data w x (y - 1) : ℤ) + (grayAt data w x (y + 1) : ℤ)
        + (grayAt data w (x - 1) y : ℤ) + (grayAt data w (x + 1) y : ℤ))
        - 4 * (grayAt data w x y : ℤ))) = fun _ => w - 2 := by
    funext j
    simp
  rw [hrow, sum_map_const_range]

theorem popVariance_lapValuesQ (data : List ℕ) (w h : ℕ) :
    popVariance (lapValuesQ data w h)
      = ((lapValues data w h).map (fun (v : ℤ) => ((v : ℚ)
          - ((lapValues data w h).map (fun (v : ℤ) => (v : ℚ))).sum
            / ((lapValues data w h).length : ℚ)) ^ 2)).sum
        / ((lapValues data w h).length : ℚ) := by
  unfold popVariance lapValuesQ
  dsimp only
  simp only [List.length_map, List.map_map]
  rfl

theorem isFrameBlurry_iff_popVariance (data : List ℕ) (w h : ℕ) (t : ℚ)
    (hne : (lapValues data w h).length ≠ 0) :
    (isFrameBlurry data w h t = true ↔ popVariance (lapValuesQ data w h) < t) := by
  unfold isFrameBlurry
  dsimp only
  rw [if_neg hne, popVariance_lapValuesQ]
  exact decide_eq_true_iff

/-- Claim C6: on any buffer with at least one interior pixel (width and height
at least 3), the blur predicate rejects exactly when the population variance of
the 4-neighbour Laplacian responses over the luma image is strictly below
`blurThreshold`; consequently every frame the extraction filter accepts has
Laplacian-response variance at least `blurThreshold`. -/
theorem C6_blur_variance (data : List ℕ) (prev : Option (List ℕ)) (w h : ℕ)
    (bt st : ℚ) (hw : 3 ≤ w) (hh : 3 ≤ h) :
    (isFrameBlurry data w h bt = true ↔ popVariance (lapValuesQ data w h) < bt) ∧
    (frameAccepted data prev w h bt st = true →
      bt ≤ popVariance (lapValuesQ data w h)) := by
  have hne : (lapValues data w h).length ≠ 0 := by
    rw [lapValues_length]
    exact Nat.mul_ne_zero (by omega) (by omega)
  have hiff := isFrameBlurry_iff_popVariance data w h bt hne
  refine ⟨hiff, fun hacc => ?_⟩
  have hnb : isFrameBlurry data w h bt = false := by
    cases hb : isFrameBlurry data w h bt
    · rfl
    · unfold frameAccepted at hacc
      rw [hb] at hacc
      simp at hacc
  refine not_lt.mp fun hlt => ?_
  rw [hiff.mpr hlt] at hnb
  cases hnb

theorem getD_replicate_self (n i : ℕ) (d : ℕ) :
    (List.replicate n d).getD i d = d := by
  induction n generalizing i with
  | zero => simp [List.getD]
  | succ k ih =>
    cases i with
    | zero => simp [List.replicate]
    | succ j => simpa [List.replicate] using ih j

theorem grayAt_buf36 (x y : ℕ) : grayAt buf36 3 x y = 0 := by
  unfold grayAt clampByte buf36
  dsimp only
  rw [getD_replicate_self, getD_replicate_self, getD_replicate_self]
  norm_num

theorem lapValues_buf36 : lapValues buf36 3 3 = [0] := by
  unfold lapValues
  simp [grayAt_buf36]

theorem isFrameBlurry_buf36 : isFrameBlurry buf36 3 3 0 = false := by
  unfold isFrameBlurry
  rw [lapValues_buf36]
  norm_num

theorem frameAccepted_buf36 : frameAccepted buf36 none 3 3 0 1 = true := by
  unfold frameAccepted
  rw [isFrameBlurry_buf36]
  rfl

/-- Witness for C6 on the 3x3 all-black frame accepted at thresholds
`blurThreshold = 0`, `similarityThreshold = 1`. -/
theorem C6_blur_variance_witness :
    (0 : ℚ) ≤ popVariance (lapValuesQ buf36 3 3) :=
  (C6_blur_variance buf36 none 3 3 0 1 (by norm_num) (by norm_num)).2
    frameAccepted_buf36

/-! ## Claim C7 -/

/-- Counterexample to C7 as stated: a decoder reporting zero duration does not
make extraction fail — the promise resolves, here with the single frame sampled
at instant 0 and the aspect ratio. -/
theorem C7_counterexample :
    extractFrames zeroDurationSource 1 5 extractOptsZero
      = .ok ([buf36], 1) := by
  unfold extractFrames zeroDurationSource
  dsimp only
  have hfuel : (⌈(0 : ℚ) * 1⌉).toNat + 2 = 2 := by norm_num
  rw [hfuel]
  have hint : (1 : ℚ) / 1 = 1 := by norm_num
  rw [hint]
  have hq : ((3 : ℕ) : ℚ) / ((3 : ℕ) : ℚ) = 1 := by norm_num
  rw [hq]
  norm_num [extractLoop, extractOptsZero, frameAccepted_buf36]

/-- Claim C7, amended: extraction rejects exactly from the decoder's `error`
event (with a "Video loading error" message); there is no zero-duration check,
and whenever the decoder reports metadata — any duration, including zero — the
sampling loop resolves successfully. -/
theorem C7_extract_error_only_on_load_failure (msg : String) (fps : ℚ)
    (maxFrames : ℕ) (opts : ExtractOptions) (d : ℚ) (w h : ℕ)
    (frameAt : ℚ → List ℕ) :
    extractFrames (.loadError msg) fps maxFrames opts
      = .error ("Video loading error: " ++ msg) ∧
    ∃ res, extractFrames (.media d w h frameAt) fps maxFrames opts = .ok res :=
  ⟨rfl, ⟨_, rfl⟩⟩

/-! ## Claim C10 -/

theorem length_dropWhile_le (p : Char → Bool) (l : List Char) :
    (l.dropWhile p).length ≤ l.length := by
  induction l with
  | nil => simp
  | cons a t ih =>
    rw [List.dropWhile_cons]
    split
    · exact Nat.le_trans ih (Nat.le_succ _)
    · exact Nat.le_refl _

theorem jsTrim_length_le (s : List Char) : (jsTrim s).length ≤ s.length := by
  unfold jsTrim
  calc ((s.dropWhile isJsSpace).reverse.dropWhile isJsSpace).reverse.length
      = ((s.dropWhile isJsSpace).reverse.dropWhile isJsSpace).length :=
        List.length_reverse _
    _ ≤ (s.dropWhile isJsSpace).reverse.length := length_dropWhile_le _ _
    _ = (s.dropWhile isJsSpace).length := List.length_reverse _
    _ ≤ s.length := length_dropWhile_le _ _

theorem truncatedDescription_length_le (p d : List Char) :
    (truncatedDescription p d).length
      ≤ ((MAX_PROMPT_LENGTH : ℤ) - p.length - 1).toNat := by
  unfold truncatedDescription
  dsimp only
  split_ifs with h1 h2
  · cases hls : lastSpaceIndex (jsTrim
        (d.take ((MAX_PROMPT_LENGTH : ℤ) - p.length - 1).toNat)) with
    | some idx =>
      dsimp only
      have a1 := jsTrim_length_le
        (d.take ((MAX_PROMPT_LENGTH : ℤ) - p.length - 1).toNat)
      have a2 := List.length_take ((MAX_PROMPT_LENGTH : ℤ) - p.length - 1).toNat d
      have a3 := List.length_take idx (jsTrim
        (d.take ((MAX_PROMPT_LENGTH : ℤ) - p.length - 1).toNat))
      omega
    | none =>
      dsimp only
      have a1 := jsTrim_length_le
        (d.take ((MAX_PROMPT_LENGTH : ℤ) - p.length - 1).toNat)
      have a2 := List.length_take ((MAX_PROMPT_LENGTH : ℤ) - p.length - 1).toNat d
      omega
  · simp
  · omega

/-- Claim C10: whenever the style prefix is shorter than 500 characters, the
final prompt `regenerateImage` builds (prefix, a space, then the word-boundary
truncated description, trimmed) is at most 500 characters long. -/
theorem C10_final_prompt_length (stylePfx descr : List Char)
    (h : stylePfx.length < MAX_PROMPT_LENGTH) :
    (buildFinalPrompt stylePfx descr).length ≤ MAX_PROMPT_LENGTH := by
  have h1 := jsTrim_length_le (stylePfx ++ [' '] ++ truncatedDescription stylePfx descr)
  have h2 := truncatedDescription_length_le stylePfx descr
  have h3 : (stylePfx ++ [' '] ++ truncatedDescription stylePfx descr).length
      = stylePfx.length + 1 + (truncatedDescription stylePfx descr).length := by
    simp only [List.length_append, List.length_cons, List.length_nil]
  unfold buildFinalPrompt
  omega

set_option maxRecDepth 8000 in
/-- Witness for C10: the cartoon style prefix (140 characters) with a
600-character description yields a prompt within the 500-character budget. -/
theorem C10_final_prompt_length_witness :
    (buildFinalPrompt stylePfxSample longDescr).length ≤ MAX_PROMPT_LENGTH :=
  C10_final_prompt_length stylePfxSample longDescr (by decide)

end VideoFrameExtractor
